import Mathlib

/-!
Verification of the pymap3d coordinate-transform core (dca.py, nvector.py,
sidereal.py, eci.py) against its specification.

Floating-point arithmetic is idealized as real arithmetic (`ℝ`); the purely
rational calendar computation `juliandate` is embedded over `ℚ` so it can be
evaluated exactly.  Python `%` on a positive divisor is floored modulus, and
Python `int()` truncates toward zero; both are modelled explicitly below.
-/

noncomputable section

open Real

/-- Modelled from the spec: `mathfun.radians` (the degree→radian conversion
used by every transform with `deg=True`) lives in `mathfun.py`, a thin shim
over Python `math`/`numpy` that is outside the provided sources; per the
units contract it converts degrees to radians. -/
def radians (x : ℝ) : ℝ := x * π / 180

/-! ## dca.py -/

/-- `enu2dca(e, n, u, heading, deg)` from dca.py: rotate the horizontal
`(e, n)` pair by the heading angle; `u` passes through. -/
def enu2dca (e n u heading : ℝ) (deg : Bool) : ℝ × ℝ × ℝ :=
  let h := if deg then radians heading else heading
  (e * sin h + n * cos h, -e * cos h + n * sin h, u)

/-- `dca2enu(dr, cr, above, heading, deg)` from dca.py. -/
def dca2enu (dr cr above heading : ℝ) (deg : Bool) : ℝ × ℝ × ℝ :=
  let h := if deg then radians heading else heading
  (dr * sin h - cr * cos h, dr * cos h + cr * sin h, above)

/-! ## nvector.py -/

/-- `geodetic2nvector(lat, lon, deg)` from nvector.py. -/
def geodetic2nvector (lat lon : ℝ) (deg : Bool) : ℝ × ℝ × ℝ :=
  let la := if deg then radians lat else lat
  let lo := if deg then radians lon else lon
  (cos la * cos lo, cos la * sin lo, sin la)

/-! ## sidereal.py -/

/-- A Python `datetime.datetime`: calendar fields plus optional timezone
information (modelled as a UTC offset in minutes; `none` = naive). -/
structure Datetime where
  year : ℤ
  month : ℤ
  day : ℤ
  hour : ℤ
  minute : ℤ
  second : ℤ
  microsecond : ℤ
  tzinfo : Option ℤ
deriving DecidableEq, Repr

/-- Python `int()` applied to a rational: truncation toward zero. -/
def pyint (x : ℚ) : ℤ := if 0 ≤ x then ⌊x⌋ else ⌈x⌉

/-- `juliandate(time)` from sidereal.py, scalar case (the Meeus/Vallado
calendar-to-Julian-date formula).  `365.25 = 1461/4`, `30.6001 =
306001/10000`, `1524.5 = 3049/2` are the exact rational values of the
source's decimal literals. -/
def juliandate (t : Datetime) : ℚ :=
  let year : ℤ := if t.month < 3 then t.year - 1 else t.year
  let month : ℤ := if t.month < 3 then t.month + 12 else t.month
  let A : ℤ := pyint ((year : ℚ) / 100)
  let B : ℤ := 2 - A + pyint ((A : ℚ) / 4)
  let C : ℚ :=
    ((((t.second : ℚ) + (t.microsecond : ℚ) / 1000000) / 60 + (t.minute : ℚ)) / 60
        + (t.hour : ℚ)) / 24
  ((pyint ((1461 : ℚ) / 4 * ((year : ℚ) + 4716)) : ℚ)
      + (pyint ((306001 : ℚ) / 10000 * ((month : ℚ) + 1)) : ℚ)
      + (t.day : ℚ) + (B : ℚ)) - (3049 : ℚ) / 2 + C

/-- Python `a % m` on reals (floored modulus: result has the sign of `m`). -/
def pymod (a m : ℝ) : ℝ := a - m * ⌊a / m⌋

/-- `greenwichsrt(Jdate)` from sidereal.py, scalar case: Vallado's cubic in
Julian centuries since J2000, converted from seconds of angle to radians and
reduced modulo `2π` (the source's `tau`).  `6.2e-6 = 0.0000062`. -/
def greenwichsrt (Jdate : ℝ) : ℝ :=
  let tUT1 := (Jdate - 2451545.0) / 36525.0
  let gmst_sec :=
    67310.54841 + (876600 * 3600 + 8640184.812866) * tUT1
      + 0.093104 * tUT1 ^ 2 - 0.0000062 * tUT1 ^ 3
  pymod (gmst_sec * (2 * π) / 86400.0) (2 * π)

/-- Modelled from the spec: `str2dt` from `timeconv.py` (the string/datetime
parsing helper, an external collaborator outside the provided sources);
on an input that is already a datetime it returns it unchanged. -/
def str2dt (t : Datetime) : Datetime := t

/-- `datetime2sidereal_vallado(t, lon_radians)` from sidereal.py:
Greenwich sidereal angle of the Julian date, plus the longitude offset. -/
def datetime2sidereal_vallado (t : Datetime) (lon_radians : ℝ) : ℝ :=
  greenwichsrt ((juliandate (str2dt t) : ℚ) : ℝ) + lon_radians

/-- A time argument: either a single datetime or a list of datetimes
(Python dispatches on `isinstance(time, (tuple, list))`). -/
inductive TimeArg where
  | scalar : Datetime → TimeArg
  | list : List Datetime → TimeArg
deriving DecidableEq

/-- Scalar-or-list result of `juliandate`. -/
inductive JDResult where
  | scalar : ℚ → JDResult
  | list : List ℚ → JDResult
deriving DecidableEq

/-- `juliandate` with the `isinstance` list dispatch:
`return list(map(juliandate, time))`. -/
def juliandate_arg : TimeArg → JDResult
  | .scalar t => .scalar (juliandate t)
  | .list ts => .list (ts.map juliandate)

/-- A Julian-date argument to `greenwichsrt`: scalar or list. -/
inductive JDArg where
  | scalar : ℝ → JDArg
  | list : List ℝ → JDArg

/-- Scalar-or-list result of `greenwichsrt` / `datetime2sidereal`. -/
inductive SidResult where
  | scalar : ℝ → SidResult
  | list : List ℝ → SidResult

/-- `greenwichsrt` with the `isinstance` list dispatch:
`return list(map(greenwichsrt, Jdate))`. -/
def greenwichsrt_arg : JDArg → SidResult
  | .scalar jd => .scalar (greenwichsrt jd)
  | .list jds => .list (jds.map greenwichsrt)

/-- Scalar core of `datetime2sidereal(time, lon_radians, force_non_astropy)`:
the astropy backend is used when astropy is importable and the flag does not
forbid it, else the Vallado path.  The astropy backend itself is external
code, abstracted as the parameter `astropyImpl`; `astropyLoaded` models
`"astropy" in sys.modules`. -/
def datetime2sidereal_scalar (astropyLoaded : Bool) (astropyImpl : Datetime → ℝ → ℝ)
    (t : Datetime) (lon_radians : ℝ) (force_non_astropy : Bool) : ℝ :=
  if astropyLoaded && !force_non_astropy then astropyImpl t lon_radians
  else datetime2sidereal_vallado t lon_radians

/-- `datetime2sidereal` from sidereal.py with the list dispatch.  The source's
list branch is `[datetime2sidereal(t, lon_radians) for t in time]`: the
recursive call does NOT forward `force_non_astropy`, so each element is
processed with the default `force_non_astropy=False` — modelled by the
literal `false` in the list case. -/
def datetime2sidereal (astropyLoaded : Bool) (astropyImpl : Datetime → ℝ → ℝ) :
    TimeArg → ℝ → Bool → SidResult
  | .list ts, lon_radians, _force =>
      .list (ts.map fun t => datetime2sidereal_scalar astropyLoaded astropyImpl t lon_radians false)
  | .scalar t, lon_radians, force =>
      .scalar (datetime2sidereal_scalar astropyLoaded astropyImpl t lon_radians force)

/-! ## eci.py -/

/-- `R3(x)` from eci.py: the rotation matrix about the polar (z) axis,
`[[cos x, sin x, 0], [-sin x, cos x, 0], [0, 0, 1]]`. -/
def R3 (x : ℝ) : Matrix (Fin 3) (Fin 3) ℝ :=
  !![cos x, sin x, 0; -sin x, cos x, 0; 0, 0, 1]

/-- Numpy `M @ v` for a 3×3 matrix and a coordinate triple. -/
def matvec3 (M : Matrix (Fin 3) (Fin 3) ℝ) (v : ℝ × ℝ × ℝ) : ℝ × ℝ × ℝ :=
  let w := M.mulVec ![v.1, v.2.1, v.2.2]
  (w 0, w 1, w 2)

/-- The broadcast step of `eci2ecef_numpy`:
`if gst.size == 1 and x.size != 1: gst = numpy.broadcast_to(gst, x.shape[0])`. -/
def broadcast_gst (n : ℕ) (gst : List ℝ) : List ℝ :=
  match gst with
  | [g] => if n ≠ 1 then List.replicate n g else [g]
  | _ => gst

/-- `gst = numpy.atleast_1d(greenwichsrt(juliandate(t)))`: a scalar time
yields a one-element batch of sidereal angles, a list of times yields one
angle per time. -/
def gst_of_time : TimeArg → List ℝ
  | .scalar t => [greenwichsrt ((juliandate t : ℚ) : ℝ)]
  | .list ts => ts.map fun t => greenwichsrt ((juliandate t : ℚ) : ℝ)

/-- The `AssertionError`s of eci.py: mismatched position-component shapes
(`assert x.shape == y.shape == z.shape`) or a time batch whose size differs
from the position batch (`assert x.size == gst.size`). -/
inductive ShapeError where
  | xyzMismatch : ShapeError
  | gstMismatch : ShapeError
deriving DecidableEq, Repr

/-- `eci2ecef_numpy(x, y, z, t)` from eci.py on 1-D batches, with the batch
of sidereal angles already extracted from the time argument.  The two
`assert` statements become `Except.error`; the per-row loop
`ecef[i, :] = R3(gst[i]) @ eci[i, :].T` becomes a `zipWith`. -/
def eci2ecef_numpy (x y z gst : List ℝ) : Except ShapeError (List (ℝ × ℝ × ℝ)) :=
  if x.length = y.length ∧ y.length = z.length then
    let g := broadcast_gst x.length gst
    if x.length = g.length then
      .ok (List.zipWith (fun gi v => matvec3 (R3 gi) v) g
        (List.zipWith (fun a p => (a, p)) x (List.zipWith Prod.mk y z)))
    else .error .gstMismatch
  else .error .xyzMismatch

/-- `ecef2eci_numpy(x, y, z, t)` from eci.py on 1-D batches.  Unlike
`eci2ecef_numpy` the source has NO broadcast step before
`assert x.size == gst.size`; the per-row loop applies the transposed
rotation `R3(gst[i]).T @ ecef[i, :]`. -/
def ecef2eci_numpy (x y z gst : List ℝ) : Except ShapeError (List (ℝ × ℝ × ℝ)) :=
  if x.length = y.length ∧ y.length = z.length then
    if x.length = gst.length then
      .ok (List.zipWith (fun gi v => matvec3 (R3 gi).transpose v) gst
        (List.zipWith (fun a p => (a, p)) x (List.zipWith Prod.mk y z)))
    else .error .gstMismatch
  else .error .xyzMismatch

/-! ## Theorems -/

/-- C1: for every real east, north, up and every heading (in particular
every heading in `[0,360)` degrees, and likewise with `deg=False`),
applying `enu2dca` and then `dca2enu` with the same heading recovers the
original `(e, n, u)` triple exactly in real arithmetic. -/
theorem enu2dca_dca2enu_roundtrip (e n u heading : ℝ) (deg : Bool) :
    (let dca := enu2dca e n u heading deg
     dca2enu dca.1 dca.2.1 dca.2.2 heading deg) = (e, n, u) := by
  simp only [enu2dca, dca2enu]
  set h := if deg then radians heading else heading with hh
  have hsc : sin h ^ 2 + cos h ^ 2 = 1 := sin_sq_add_cos_sq h
  refine Prod.ext ?_ (Prod.ext ?_ rfl)
  · show (e * sin h + n * cos h) * sin h - (-e * cos h + n * sin h) * cos h = e
    linear_combination e * hsc
  · show (e * sin h + n * cos h) * cos h + (-e * cos h + n * sin h) * sin h = n
    linear_combination n * hsc

/-- C2 counterexample: `enu2dca(1, 0, 0, 0)` returns `(0, -1, 0)`, not
`(1, 0, 0)`: heading zero is not the identity on `(e, n, u)`. -/
theorem enu2dca_heading_zero_not_id :
    enu2dca 1 0 0 0 true ≠ (1, 0, 0) := by
  simp [enu2dca, radians, Prod.ext_iff]

/-- C2 amended: at heading 0 the rotation aligns down-range with north and
cross-range with minus east: `enu2dca(e, n, u, 0) = (n, -e, u)` exactly
(for both the degree and radian conventions). -/
theorem enu2dca_heading_zero (e n u : ℝ) (deg : Bool) :
    enu2dca e n u 0 deg = (n, -e, u) := by
  cases deg <;> simp [enu2dca, radians]

/-- C8: `geodetic2nvector(lat, lon)` equals
`(cos(lat)cos(lon), cos(lat)sin(lon), sin(lat))` after degree-to-radian
conversion when `deg=True`, and the returned vector has squared Euclidean
norm exactly 1 in real arithmetic. -/
theorem geodetic2nvector_unit_norm (lat lon : ℝ) (deg : Bool) :
    (geodetic2nvector lat lon deg =
      ((cos (if deg then radians lat else lat) * cos (if deg then radians lon else lon),
        cos (if deg then radians lat else lat) * sin (if deg then radians lon else lon),
        sin (if deg then radians lat else lat)) : ℝ × ℝ × ℝ))
    ∧ (let n := geodetic2nvector lat lon deg
       n.1 ^ 2 + n.2.1 ^ 2 + n.2.2 ^ 2 = 1) := by
  refine ⟨rfl, ?_⟩
  simp only [geodetic2nvector]
  set la := if deg then radians lat else lat
  set lo := if deg then radians lon else lon
  have h1 : sin la ^ 2 + cos la ^ 2 = 1 := sin_sq_add_cos_sq la
  have h2 : sin lo ^ 2 + cos lo ^ 2 = 1 := sin_sq_add_cos_sq lo
  show (cos la * cos lo) ^ 2 + (cos la * sin lo) ^ 2 + sin la ^ 2 = 1
  linear_combination (cos la ^ 2) * h2 + h1

/-- Python `%` with a positive divisor lands in `[0, m)`. -/
theorem pymod_bounds (a m : ℝ) (hm : 0 < m) : 0 ≤ pymod a m ∧ pymod a m < m := by
  have hm' : m ≠ 0 := ne_of_gt hm
  have h1 : pymod a m = m * Int.fract (a / m) := by
    unfold pymod Int.fract
    rw [mul_sub, mul_div_cancel₀ a hm']
  constructor
  · rw [h1]
    exact mul_nonneg hm.le (Int.fract_nonneg _)
  · rw [h1]
    calc m * Int.fract (a / m) < m * 1 := by
          exact mul_lt_mul_of_pos_left (Int.fract_lt_one _) hm
      _ = m := mul_one m

/-- C5: for every Julian date, `greenwichsrt` equals Vallado's cubic
polynomial in centuries since J2000, converted from seconds of angle to
radians, minus an integer number of full turns, and the result always lies
in `[0, 2π)`. -/
theorem greenwichsrt_poly_and_range (jd : ℝ) :
    (∃ k : ℤ,
      greenwichsrt jd =
        (67310.54841
            + (876600 * 3600 + 8640184.812866) * ((jd - 2451545.0) / 36525.0)
            + 0.093104 * ((jd - 2451545.0) / 36525.0) ^ 2
            - 0.0000062 * ((jd - 2451545.0) / 36525.0) ^ 3) * (2 * π) / 86400.0
          - (k : ℝ) * (2 * π))
    ∧ 0 ≤ greenwichsrt jd ∧ greenwichsrt jd < 2 * π := by
  have hτ : (0 : ℝ) < 2 * π := by positivity
  have hb := pymod_bounds
    ((67310.54841
        + (876600 * 3600 + 8640184.812866) * ((jd - 2451545.0) / 36525.0)
        + 0.093104 * ((jd - 2451545.0) / 36525.0) ^ 2
        - 0.0000062 * ((jd - 2451545.0) / 36525.0) ^ 3) * (2 * π) / 86400.0)
    (2 * π) hτ
  have hg : greenwichsrt jd = pymod
      ((67310.54841
          + (876600 * 3600 + 8640184.812866) * ((jd - 2451545.0) / 36525.0)
          + 0.093104 * ((jd - 2451545.0) / 36525.0) ^ 2
          - 0.0000062 * ((jd - 2451545.0) / 36525.0) ^ 3) * (2 * π) / 86400.0)
      (2 * π) := rfl
  refine ⟨⟨⌊((67310.54841
      + (876600 * 3600 + 8640184.812866) * ((jd - 2451545.0) / 36525.0)
      + 0.093104 * ((jd - 2451545.0) / 36525.0) ^ 2
      - 0.0000062 * ((jd - 2451545.0) / 36525.0) ^ 3) * (2 * π) / 86400.0) / (2 * π)⌋,
    ?_⟩, ?_, ?_⟩
  · rw [hg]
    unfold pymod
    ring
  · rw [hg]; exact hb.1
  · rw [hg]; exact hb.2

/-- C6: `juliandate` applied to the calendar instant 2000-01-01 12:00:00 UTC
returns exactly 2451545.0 (exactly, in the rational model of the
float computation, whose every intermediate here is a representable
binary fraction up to the truncations). -/
theorem juliandate_j2000 :
    juliandate ⟨2000, 1, 1, 12, 0, 0, 0, some 0⟩ = 2451545 := by
  norm_num [juliandate, pyint]

/-- C10: `juliandate` depends only on the calendar fields; two datetimes
with identical year, month, day, hour, minute, second and microsecond but
arbitrary (possibly absent, possibly different) timezone information yield
identical Julian dates. -/
theorem juliandate_tzinfo_independent (t1 t2 : Datetime)
    (hy : t1.year = t2.year) (hmo : t1.month = t2.month) (hd : t1.day = t2.day)
    (hh : t1.hour = t2.hour) (hmi : t1.minute = t2.minute) (hs : t1.second = t2.second)
    (hus : t1.microsecond = t2.microsecond) :
    juliandate t1 = juliandate t2 := by
  unfold juliandate
  rw [hy, hmo, hd, hh, hmi, hs, hus]

/-- Witness for C10: a naive datetime and the same calendar instant carrying
a UTC+5:30-style offset have equal Julian dates. -/
theorem juliandate_tzinfo_independent_witness :
    juliandate ⟨2014, 4, 6, 8, 30, 15, 250000, none⟩
      = juliandate ⟨2014, 4, 6, 8, 30, 15, 250000, some 330⟩ :=
  juliandate_tzinfo_independent
    ⟨2014, 4, 6, 8, 30, 15, 250000, none⟩
    ⟨2014, 4, 6, 8, 30, 15, 250000, some 330⟩
    rfl rfl rfl rfl rfl rfl rfl

/-- Applying `R3(g)` to a coordinate triple is the planar rotation of
`(x, y)` with `z` fixed. -/
theorem matvec3_R3_apply (g a b c : ℝ) :
    matvec3 (R3 g) (a, b, c) = (cos g * a + sin g * b, -sin g * a + cos g * b, c) := by
  simp [matvec3, R3, Matrix.mulVec, Matrix.dotProduct, Fin.sum_univ_three]

/-- Applying the transpose of `R3(g)` to a coordinate triple is the inverse
planar rotation. -/
theorem matvec3_R3T_apply (g a b c : ℝ) :
    matvec3 (R3 g).transpose (a, b, c)
      = (cos g * a - sin g * b, sin g * a + cos g * b, c) := by
  simp [matvec3, R3, Matrix.mulVec, Matrix.dotProduct, Fin.sum_univ_three,
    Matrix.transpose_apply]
  ring

/-- C4: on the built-in path, `eci2ecef` applies the polar-axis rotation
`R3(gst)` with `gst = greenwichsrt(juliandate(t))` to the ECI vector,
`ecef2eci` applies its transpose to the ECEF vector, and composing the two
at the same time recovers the original vector exactly in real
arithmetic. -/
theorem eci2ecef_ecef2eci_numpy_R3 (x y z : ℝ) (t : Datetime) :
    eci2ecef_numpy [x] [y] [z] (gst_of_time (TimeArg.scalar t))
      = Except.ok [(cos (greenwichsrt ((juliandate t : ℚ) : ℝ)) * x
            + sin (greenwichsrt ((juliandate t : ℚ) : ℝ)) * y,
          -sin (greenwichsrt ((juliandate t : ℚ) : ℝ)) * x
            + cos (greenwichsrt ((juliandate t : ℚ) : ℝ)) * y, z)]
    ∧ ecef2eci_numpy [x] [y] [z] (gst_of_time (TimeArg.scalar t))
      = Except.ok [(cos (greenwichsrt ((juliandate t : ℚ) : ℝ)) * x
            - sin (greenwichsrt ((juliandate t : ℚ) : ℝ)) * y,
          sin (greenwichsrt ((juliandate t : ℚ) : ℝ)) * x
            + cos (greenwichsrt ((juliandate t : ℚ) : ℝ)) * y, z)]
    ∧ ecef2eci_numpy
        [cos (greenwichsrt ((juliandate t : ℚ) : ℝ)) * x
          + sin (greenwichsrt ((juliandate t : ℚ) : ℝ)) * y]
        [-sin (greenwichsrt ((juliandate t : ℚ) : ℝ)) * x
          + cos (greenwichsrt ((juliandate t : ℚ) : ℝ)) * y]
        [z] (gst_of_time (TimeArg.scalar t))
      = Except.ok [(x, y, z)] := by
  set g := greenwichsrt ((juliandate t : ℚ) : ℝ) with hg
  have hsc : sin g ^ 2 + cos g ^ 2 = 1 := sin_sq_add_cos_sq g
  refine ⟨?_, ?_, ?_⟩
  · simp [eci2ecef_numpy, gst_of_time, broadcast_gst, matvec3_R3_apply, hg]
  · simp [ecef2eci_numpy, gst_of_time, broadcast_gst, matvec3_R3T_apply, hg]
  · simp only [ecef2eci_numpy, gst_of_time, broadcast_gst, List.length_cons,
      List.length_nil, List.zipWith_cons_cons, List.zipWith_nil_right,
      matvec3_R3T_apply, hg]
    norm_num
    refine ⟨?_, ?_⟩
    · linear_combination x * hsc
    · linear_combination y * hsc

/-- C3 / the missing time broadcast: with a batch of two positions and a
single scalar time, `eci2ecef_numpy` broadcasts the sidereal angle and
returns both rotated vectors, while `ecef2eci_numpy` (whose source lacks
the broadcast step) fails its `assert x.size == gst.size`; mismatched
position-component shapes fail the shape assert in both directions, and a
three-element time batch against a two-element position batch fails the
size assert of `eci2ecef_numpy`. -/
theorem ecef2eci_numpy_time_broadcast_asymmetry :
    eci2ecef_numpy [1, 2] [3, 4] [5, 6]
        (gst_of_time (TimeArg.scalar ⟨2019, 1, 4, 12, 0, 0, 0, some 0⟩))
      = Except.ok
          [matvec3 (R3 (greenwichsrt
              ((juliandate ⟨2019, 1, 4, 12, 0, 0, 0, some 0⟩ : ℚ) : ℝ))) (1, 3, 5),
           matvec3 (R3 (greenwichsrt
              ((juliandate ⟨2019, 1, 4, 12, 0, 0, 0, some 0⟩ : ℚ) : ℝ))) (2, 4, 6)]
    ∧ ecef2eci_numpy [1, 2] [3, 4] [5, 6]
        (gst_of_time (TimeArg.scalar ⟨2019, 1, 4, 12, 0, 0, 0, some 0⟩))
      = Except.error ShapeError.gstMismatch
    ∧ eci2ecef_numpy [1] [2, 3] [4] [0] = Except.error ShapeError.xyzMismatch
    ∧ ecef2eci_numpy [1] [2, 3] [4] [0] = Except.error ShapeError.xyzMismatch
    ∧ eci2ecef_numpy [1, 2] [3, 4] [5, 6] [0, 0, 0]
      = Except.error ShapeError.gstMismatch := by
  refine ⟨?_, ?_, ?_, ?_, ?_⟩ <;>
    simp [eci2ecef_numpy, ecef2eci_numpy, gst_of_time, broadcast_gst]

/-- C7: with `force_non_astropy=True`, a scalar time always takes the
Vallado path, which returns `greenwichsrt(juliandate(t)) + lon_radians`;
but the list branch recurses without forwarding the flag, so for a list
input with astropy loaded the built-in path is NOT taken: with a backend
returning `vallado + 1`, the result on `[t]` differs from the Vallado
result the flag was supposed to force. -/
theorem datetime2sidereal_force_flag_dropped_on_list :
    (∀ (aL : Bool) (impl : Datetime → ℝ → ℝ) (t : Datetime) (lon : ℝ),
      datetime2sidereal aL impl (TimeArg.scalar t) lon true
        = SidResult.scalar (greenwichsrt ((juliandate t : ℚ) : ℝ) + lon))
    ∧ datetime2sidereal true
        (fun t lon => datetime2sidereal_vallado t lon + 1)
        (TimeArg.list [⟨2014, 4, 6, 8, 0, 0, 0, none⟩]) 0 true
      ≠ SidResult.list
          [datetime2sidereal_vallado ⟨2014, 4, 6, 8, 0, 0, 0, none⟩ 0] := by
  constructor
  · intro aL impl t lon
    simp [datetime2sidereal, datetime2sidereal_scalar, datetime2sidereal_vallado, str2dt]
  · intro h
    simp only [datetime2sidereal, datetime2sidereal_scalar, Bool.not_false,
      Bool.and_self, if_pos, List.map_cons, List.map_nil,
      SidResult.list.injEq, List.cons.injEq, and_true] at h
    exact absurd h (by
      intro heq
      have : (1 : ℝ) = 0 := by linarith [heq]
      norm_num at this)

/-- C9: `juliandate`, `greenwichsrt` and `datetime2sidereal` each accept a
list argument and return the element-wise list of results: at every index
the result is the scalar function applied to the element at that index
(`datetime2sidereal` recursing with its default backend-selection flag). -/
theorem sidereal_list_elementwise (ts : List Datetime) (jds : List ℝ)
    (aL : Bool) (impl : Datetime → ℝ → ℝ) (lon : ℝ) (force : Bool) (i : ℕ) :
    (juliandate_arg (TimeArg.list ts) = JDResult.list (ts.map juliandate)
      ∧ (ts.map juliandate)[i]? = (ts[i]?).map juliandate)
    ∧ (greenwichsrt_arg (JDArg.list jds) = SidResult.list (jds.map greenwichsrt)
      ∧ (jds.map greenwichsrt)[i]? = (jds[i]?).map greenwichsrt)
    ∧ (datetime2sidereal aL impl (TimeArg.list ts) lon force
        = SidResult.list
            (ts.map fun t => datetime2sidereal_scalar aL impl t lon false)
      ∧ (ts.map fun t => datetime2sidereal_scalar aL impl t lon false)[i]?
          = (ts[i]?).map fun t => datetime2sidereal_scalar aL impl t lon false) := by
  refine ⟨⟨rfl, ?_⟩, ⟨rfl, ?_⟩, ⟨rfl, ?_⟩⟩ <;> simp

end
